import Mathlib

/-!
Verification of the long-poll update-notification mechanism of the
ChaaAt backend (`src/index/views/updates.py`, `src/drfutils/mixins.py`,
`src/index/consumers.py`).

The broker (`UpdateManager`) keeps two process-wide dictionaries: a waiter
map from subscription keys to asyncio futures, and a cache map from keys
to lists of not-yet-delivered updates.  We embed the Python code as pure
Lean functions over an explicit `Broker` state.  Dictionaries are embedded
as functions into `Option`; asyncio futures are embedded as an explicit
store of `FutureState` values indexed by allocation order, since a future
object survives the deletion of its waiter-map entry and may be shared by
overlapping calls to `next`.

`UpdateManager.next` contains one suspension point (the `await
aio.wait_for(future, timeout)` on line 46 of updates.py).  We therefore
split it into its two atomic blocks: `nextEnter` (everything before the
await) and `nextResume` (everything after, i.e. the `except`/`finally`
part).  How the await ended is a scheduler/clock fact, abstracted by
`WaitEnd`: the future was resolved and the task resumed normally, the
`wait_for` timer fired, or the calling request context was cancelled
(client disconnect).  Real time itself is not modelled; the `timedOut`
outcome stands for the elapse of the `timeout` argument.
-/

namespace ChaaAt

/-- Update a finite map (embedding of the Python dict assignment
`d[k] = v`). -/
def mset {α β : Type} [DecidableEq α] (m : α → Option β) (k : α) (v : β) :
    α → Option β :=
  fun k' => if k' = k then some v else m k'

/-- Delete a key from a finite map (embedding of the Python `del d[k]`;
on an absent key this is the identity, which is how it is used: the
source guards each `del` with `if key in d`). -/
def mdel {α β : Type} [DecidableEq α] (m : α → Option β) (k : α) :
    α → Option β :=
  fun k' => if k' = k then none else m k'

@[simp]
lemma mset_self {α β : Type} [DecidableEq α] (m : α → Option β) (k : α) (v : β) :
    mset m k v k = some v := by
  simp [mset]

lemma mset_ne {α β : Type} [DecidableEq α] (m : α → Option β) (k k' : α) (v : β)
    (h : k' ≠ k) : mset m k v k' = m k' := by
  simp [mset, h]

@[simp]
lemma mdel_self {α β : Type} [DecidableEq α] (m : α → Option β) (k : α) :
    mdel m k k = none := by
  simp [mdel]

lemma mdel_ne {α β : Type} [DecidableEq α] (m : α → Option β) (k k' : α)
    (h : k' ≠ k) : mdel m k k' = m k' := by
  simp [mdel, h]

/-- An update as stored and delivered by the broker.  `UpdateManager.commit`
(updates.py line 25) wraps the committed payload as the two-element list
`[self.label, update]`; we embed that pair as a structure.  Payloads are
opaque to the broker, so we fix them to `String`. -/
structure Upd where
  label : Option String
  payload : String
deriving DecidableEq

/-- Wrapping performed by `update = [self.label, update]`
(updates.py line 25). -/
def wrap (label : Option String) (payload : String) : Upd :=
  ⟨label, payload⟩

/-- State of an asyncio `Future`: pending, resolved with a value by
`set_result`, or cancelled (by `aio.wait_for` on timeout or on
cancellation of the awaiting task). -/
inductive FutureState where
  | pending
  | resolved (u : Upd)
  | cancelled
deriving DecidableEq

/-- Exceptions the embedded code can raise.  `invalidState` embeds
`asyncio.InvalidStateError`, raised by `Future.set_result` when the
future is not pending. -/
inductive PyError where
  | invalidState
deriving DecidableEq

/-- The broker state: the two class-level dictionaries of `UpdateManager`
(updates.py lines 11-12) plus the store of live future objects.
`fresh` is the next unused future id (futures are identified by
allocation order). -/
structure Broker where
  waiters : String → Option Nat
  futures : Nat → Option FutureState
  caches : String → Option (List Upd)
  fresh : Nat

/-- The broker state at process start: both dictionaries empty. -/
def Broker.init : Broker :=
  ⟨fun _ => none, fun _ => none, fun _ => none, 0⟩

/-- Embedding of `asyncio.Future.set_result`: resolves a pending future,
raises `InvalidStateError` if the future is already resolved or
cancelled (or unknown). -/
def set_result (fid : Nat) (u : Upd) (b : Broker) : Except PyError Broker :=
  match b.futures fid with
  | some .pending => .ok { b with futures := mset b.futures fid (.resolved u) }
  | _ => .error .invalidState

/-- Embedding of `UpdateManager.commit` (updates.py lines 22-32): wrap the
payload with the manager's label; if the key has a waiter entry, call
`set_result` on its future (which raises if the future is no longer
pending — the source has no guard); otherwise append to the key's cache
pool, creating it if absent (`setdefault` + `append`). -/
def commit (key : String) (label : Option String) (payload : String)
    (b : Broker) : Except PyError Broker :=
  match b.waiters key with
  | some fid => set_result fid (wrap label payload) b
  | none =>
      .ok { b with
            caches := mset b.caches key
              (((b.caches key).getD []) ++ [wrap label payload]) }

/-- Embedding of the entry block of `UpdateManager.next` (updates.py lines
37-42, everything up to the `await`): `future = waiters.get(self.key,
aio.Future())` reuses an already-pending future for the key if one
exists (the overlap case), otherwise allocates a fresh pending future;
then `waiters[self.key] = future`.  Returns the id of the future the
call will await. -/
def nextEnter (key : String) (b : Broker) : Nat × Broker :=
  match b.waiters key with
  | some fid => (fid, { b with waiters := mset b.waiters key fid })
  | none =>
      (b.fresh,
       { b with
           waiters := mset b.waiters key b.fresh,
           futures := mset b.futures b.fresh .pending,
           fresh := b.fresh + 1 })

/-- How the `await aio.wait_for(future, timeout)` on updates.py line 46
ended, from the point of view of the suspended call: the future was
resolved and the task resumed normally; the `wait_for` timer fired
(`TimeoutError`); or the calling request context was cancelled
mid-wait (`CancelledError`, e.g. client disconnect, or the shared
future being cancelled by an overlapping call's timeout). -/
inductive WaitEnd where
  | resolved
  | timedOut
  | ctxCancelled
deriving DecidableEq

/-- Embedding of `asyncio.Future.cancel` as performed by `aio.wait_for`
when the wait does not finish normally: a pending future becomes
cancelled; a future that is already done is left unchanged. -/
def futCancel (fid : Nat) (b : Broker) : Broker :=
  match b.futures fid with
  | some .pending => { b with futures := mset b.futures fid .cancelled }
  | _ => b

/-- Value produced by the `await` when it ends normally: the result the
future was resolved with (`update = await aio.wait_for(...)`,
updates.py line 46); `none` on the timeout and cancellation paths,
where the assignment to `update` never happens. -/
def waitResult (fid : Nat) (w : WaitEnd) (b : Broker) : Option Upd :=
  match w with
  | .resolved =>
      match b.futures fid with
      | some (.resolved u) => some u
      | _ => none
  | _ => none

/-- Embedding of the `finally` block of `UpdateManager.next` (updates.py
lines 49-57): `if self.key in waiters: del waiters[self.key]`, then
`return update`.  Because the `return` sits inside the `finally`, the
function returns a value on every path — including the path where a
`CancelledError` is in flight, which the `return` discards — so this
is a total function into a plain value, never an exception. -/
def nextFinally (key : String) (r : Option Upd) (b : Broker) :
    Option Upd × Broker :=
  (r, { b with waiters := mdel b.waiters key })

/-- Embedding of the resume block of `UpdateManager.next` (updates.py
lines 44-57, everything after the `await`), given how the await ended:
on normal resolution the future's value is returned; on timeout the
`TimeoutError` is caught (`pass`) and on context cancellation the
`CancelledError` reaches the `finally`, in both cases `wait_for` has
cancelled the still-pending future and `update` is still `None`; the
`finally` block then removes the waiter entry and returns. -/
def nextResume (key : String) (fid : Nat) (w : WaitEnd) (b : Broker) :
    Option Upd × Broker :=
  match w with
  | .resolved => nextFinally key (waitResult fid .resolved b) b
  | .timedOut => nextFinally key none (futCancel fid b)
  | .ctxCancelled => nextFinally key none (futCancel fid b)

/-- Embedding of `UpdateManager.pop_caches` (updates.py lines 59-64):
read the key's cache pool with default `[]`, then assign `[]` to the
key — note the assignment `self.__cache_pools_mapping[self.key] = []`
(line 63) installs an empty-list entry for the key even when the key
was absent, and never removes the key from the dictionary. -/
def pop_caches (key : String) (b : Broker) : List Upd × Broker :=
  ((b.caches key).getD [], { b with caches := mset b.caches key [] })

/-- A sequence of commits for one key with the same manager label,
each propagating the first raised exception (used to state the FIFO
caching property over whole commit sequences). -/
def commitList (key : String) (evs : List (Option String × String))
    (b : Broker) : Except PyError Broker :=
  match evs with
  | [] => .ok b
  | (lab, p) :: rest =>
      match commit key lab p b with
      | .ok b' => commitList key rest b'
      | .error e => .error e

/-- The broker state after a call to `commit`, whether or not it raised:
`set_result` raises `InvalidStateError` before performing any state
change, so on the error path the broker is unchanged. -/
def commitRun (key : String) (label : Option String) (payload : String)
    (b : Broker) : Broker :=
  match commit key label payload b with
  | .ok b' => b'
  | .error _ => b

/-- Default value of the `timeout` parameter of `UpdateManager.next`
(updates.py line 34, `async def next(self, timeout: int = 30)`).
`UpdateAPIView.get` calls `next()` with no argument, so its long-poll
wait is bounded by this many seconds; real-time elapse itself is
abstracted by `WaitEnd.timedOut`. -/
def next_timeout_default : Nat := 30

/-- Embedding of `UpdateAPIView.get` (updates.py lines 69-81): drain the
caller's cache pool; if it was non-empty (Python truthiness of the
list) return exactly those updates; otherwise perform a full call to
`next` — enter, suspend, resume — and return a one-element list if it
produced an update, an empty list if it returned `None`.  `env` is the
state transformation performed by the other tasks that run while this
request is suspended at the `await`, and `w` is how the await ended. -/
def apiGet (key : String) (env : Broker → Broker) (w : WaitEnd)
    (b : Broker) : List Upd × Broker :=
  match pop_caches key b with
  | (updates, b1) =>
      if updates.isEmpty then
        match nextEnter key b1 with
        | (fid, b2) =>
            match nextResume key fid w (env b2) with
            | (some u, b3) => ([u], b3)
            | (none, b3) => ([], b3)
      else (updates, b1)

/-- Embedding of `UpdateAPIView.delete` (updates.py lines 83-85): drain
and discard the caller's cache pool and return `Response()` — a
response with no body, embedded as `none`. -/
def apiDelete (key : String) (b : Broker) : Option (List Upd) × Broker :=
  (none, (pop_caches key b).2)

/-! ### Trace semantics

To settle the claims that quantify over every reachable broker state, we
give a small-step semantics for whole executions: any interleaving of
producers calling `commit`, consumers running the two atomic blocks of
`next` (with the scheduler events that separate them), and callers of
`pop_caches`.  A `ConsumerTask` records one in-flight call to `next`:
which key it is for, which future it awaits, and — once it has run its
resume block — the value it returned. -/

/-- One in-flight (or finished) call to `UpdateManager.next`. -/
structure ConsumerTask where
  key : String
  fid : Nat
  result : Option (Option Upd)
deriving DecidableEq

/-- Whole-system state: the broker plus the in-flight `next` calls,
indexed by a task id, and a count of `InvalidStateError` exceptions
raised by `commit` so far. -/
structure Sys where
  broker : Broker
  tasks : Nat → Option ConsumerTask
  errorCount : Nat

/-- Initial system state. -/
def Sys.init : Sys :=
  ⟨Broker.init, fun _ => none, 0⟩

/-- The interleaved events of an execution.  `opNextEnter` runs the entry
block of `next` for a fresh-or-overlapping call; `opNextTimeout`,
`opNextResolveResume` and `opNextCtxCancel` run the resume block of a
suspended call for each of the three ways its await can end (a timeout
can fire only while the future is still pending, and a normal resume
happens only after the future has been resolved). -/
inductive Op where
  | opCommit (key : String) (label : Option String) (payload : String)
  | opNextEnter (tid : Nat) (key : String)
  | opNextTimeout (tid : Nat)
  | opNextResolveResume (tid : Nat)
  | opNextCtxCancel (tid : Nat)
  | opPopCaches (key : String)
deriving DecidableEq

/-- One step of the interleaved execution. -/
def step (s : Sys) : Op → Sys
  | .opCommit key lab p =>
      match commit key lab p s.broker with
      | .ok b' => { s with broker := b' }
      | .error _ => { s with errorCount := s.errorCount + 1 }
  | .opNextEnter tid key =>
      match nextEnter key s.broker with
      | (fid, b') =>
          { s with broker := b', tasks := mset s.tasks tid ⟨key, fid, none⟩ }
  | .opNextTimeout tid =>
      match s.tasks tid with
      | some c =>
          match c.result, s.broker.futures c.fid with
          | none, some .pending =>
              match nextResume c.key c.fid .timedOut s.broker with
              | (r, b') =>
                  { s with broker := b',
                           tasks := mset s.tasks tid { c with result := some r } }
          | _, _ => s
      | none => s
  | .opNextResolveResume tid =>
      match s.tasks tid with
      | some c =>
          match c.result, s.broker.futures c.fid with
          | none, some (.resolved _) =>
              match nextResume c.key c.fid .resolved s.broker with
              | (r, b') =>
                  { s with broker := b',
                           tasks := mset s.tasks tid { c with result := some r } }
          | _, _ => s
      | none => s
  | .opNextCtxCancel tid =>
      match s.tasks tid with
      | some c =>
          match c.result with
          | none =>
              match nextResume c.key c.fid .ctxCancelled s.broker with
              | (r, b') =>
                  { s with broker := b',
                           tasks := mset s.tasks tid { c with result := some r } }
          | some _ => s
      | none => s
  | .opPopCaches key =>
      { s with broker := (pop_caches key s.broker).2 }

/-- Run an execution from a state. -/
def execOps (ops : List Op) (s : Sys) : Sys :=
  ops.foldl step s

/-- A system state is reachable when some interleaved execution produces
it from the initial state. -/
def Reachable (s : Sys) : Prop :=
  ∃ ops : List Op, execOps ops Sys.init = s

/-- A live waiter for a key: the waiter map holds a future for the key
and that future is still pending. -/
def activeWaiter (b : Broker) (key : String) : Bool :=
  match b.waiters key with
  | some fid =>
      match b.futures fid with
      | some .pending => true
      | _ => false
  | none => false

/-- A non-empty cache pool for a key. -/
def activeCache (b : Broker) (key : String) : Bool :=
  !((b.caches key).getD []).isEmpty

/-! ### The broadcast-subscription consumer (`src/index/consumers.py`)

`UpdateConsumer.connect` subscribes one signal receiver per watched model
to the framework's module-level `post_save` and `post_delete` signals.
We embed the signal registry as the list of (signal, sender-model,
receiver) registrations, receivers being identified by allocation
order.  The repository defines no `disconnect` override on the consumer
and never calls `Signal.disconnect`, so the only teardown that runs when
the websocket closes is the base class's, which does not touch the
module-level registry; `consumerExit` embeds that exit path. -/

/-- The two model signals receivers are connected to
(consumers.py line 105). -/
inductive Sig where
  | post_save
  | post_delete
deriving DecidableEq

/-- State of one `UpdateConsumer` together with the module-level signal
registry. -/
structure ConsumerSys where
  registry : List (Sig × String × Nat)
  fresh : Nat
  accepted : Bool
  closed : Bool
  signal_receivers : List Nat
deriving DecidableEq

/-- A consumer before `connect`, with an empty signal registry. -/
def ConsumerSys.init : ConsumerSys :=
  ⟨[], 0, false, false, []⟩

/-- Embedding of `UpdateConsumer.subscribe_model_updates` (consumers.py
lines 86-108): build one receiver closure and connect it to both
`post_save` and `post_delete` for the given sender model, returning
the receiver.  The per-event `condition` predicate lives inside the
receiver body and is evaluated only when a signal is delivered; it
plays no role in registration, so it is not part of this state. -/
def subscribe_model_updates (model : String) (s : ConsumerSys) :
    Nat × ConsumerSys :=
  (s.fresh,
   { s with
       fresh := s.fresh + 1,
       registry := s.registry ++
         [(.post_save, model, s.fresh), (.post_delete, model, s.fresh)] })

/-- Embedding of `UpdateConsumer.connect` (consumers.py lines 32-84): an
anonymous user is rejected (`close`) with nothing registered; an
authenticated user is accepted and one receiver is subscribed for each
of the five watched models, in source order. -/
def UpdateConsumer.connect (anonymous : Bool) (s : ConsumerSys) :
    ConsumerSys :=
  if anonymous then { s with closed := true }
  else
    match subscribe_model_updates "Message" { s with accepted := true } with
    | (r1, s1) =>
        match subscribe_model_updates "FriendshipRequest" s1 with
        | (r2, s2) =>
            match subscribe_model_updates "ChatroomMembershipRequest" s2 with
            | (r3, s3) =>
                match subscribe_model_updates "Friendship" s3 with
                | (r4, s4) =>
                    match subscribe_model_updates "ChatroomMembership" s4 with
                    | (r5, s5) =>
                        { s5 with signal_receivers := [r1, r2, r3, r4, r5] }

/-- The consumer's exit path: `UpdateConsumer` overrides no `disconnect`
and no code in the repository ever calls `Signal.disconnect`, so
closing the websocket (for any reason — normal close, error, or
cancellation) leaves the signal registry exactly as it was; only the
connection is marked closed. -/
def consumerExit (s : ConsumerSys) : ConsumerSys :=
  { s with closed := true }

/-! ### Helper lemmas -/

lemma commit_no_waiter (key : String) (lab : Option String) (p : String)
    (b : Broker) (hw : b.waiters key = none) :
    commit key lab p b =
      .ok { b with
            caches := mset b.caches key
              (((b.caches key).getD []) ++ [wrap lab p]) } := by
  simp [commit, hw]

lemma commit_pending_waiter (key : String) (lab : Option String) (p : String)
    (b : Broker) (fid : Nat)
    (hw : b.waiters key = some fid) (hp : b.futures fid = some .pending) :
    commit key lab p b =
      .ok { b with futures := mset b.futures fid (.resolved (wrap lab p)) } := by
  simp [commit, set_result, hw, hp]

lemma commitList_no_waiter (key : String) (evs : List (Option String × String)) :
    ∀ b : Broker, b.waiters key = none →
      ∃ b', commitList key evs b = .ok b'
        ∧ b'.waiters = b.waiters
        ∧ (b'.caches key).getD [] =
            ((b.caches key).getD []) ++ evs.map (fun e => wrap e.1 e.2) := by
  induction evs with
  | nil =>
      intro b hw
      exact ⟨b, rfl, rfl, by simp⟩
  | cons ev rest ih =>
      intro b hw
      obtain ⟨lab, p⟩ := ev
      obtain ⟨b', h1, h2, h3⟩ := ih
        { b with
          caches := mset b.caches key
            (((b.caches key).getD []) ++ [wrap lab p]) } hw
      refine ⟨b', ?_, h2, ?_⟩
      · simp only [commitList, commit_no_waiter key lab p b hw]
        exact h1
      · rw [h3]
        simp [mset]

/-- A concrete broker state with one pending waiter for the key "k"
(future id 0) and an empty cache map, used to instantiate theorems. -/
def waiterBroker : Broker :=
  { waiters := fun k => if k = "k" then some 0 else none,
    futures := fun i => if i = 0 then some .pending else none,
    caches := fun _ => none,
    fresh := 1 }

/-- A concrete broker state with no waiters and one cached update for the
key "k", used to instantiate theorems. -/
def cachedBroker : Broker :=
  { waiters := fun _ => none,
    futures := fun _ => none,
    caches := fun k => if k = "k" then some [wrap none "c"] else none,
    fresh := 0 }

/-- A concrete broker state whose waiter for "k" holds an already-resolved
future (a commit has fired but the waiting task has not resumed yet),
used to instantiate theorems. -/
def resolvedBroker : Broker :=
  { waiters := fun k => if k = "k" then some 0 else none,
    futures := fun i => if i = 0 then some (.resolved (wrap none "a")) else none,
    caches := fun _ => none,
    fresh := 1 }

/-! ### Formalised claims about the repository -/

/-- Statement of claim C5 as written: for every reachable broker state,
`commit` never fails. -/
def CommitNeverFails : Prop :=
  ∀ s : Sys, Reachable s → ∀ (key : String) (lab : Option String) (p : String),
    (commit key lab p s.broker).isOk = true

/-- Statement of claim C7's invariant as written: in every reachable state
(hence at every moment a `commit` can be invoked), at most one of a live
waiter and a non-empty cache is active for a key. -/
def AtMostOneActivePerKey : Prop :=
  ∀ s : Sys, Reachable s → ∀ key : String,
    ¬(activeWaiter s.broker key = true ∧ activeCache s.broker key = true)

/-- Statement of claim C8 as written: in every reachable state, a key not
referenced by a live waiter or a non-empty cache is absent from both
maps. -/
def KeysGarbageCollected : Prop :=
  ∀ s : Sys, Reachable s → ∀ key : String,
    activeWaiter s.broker key = false → activeCache s.broker key = false →
      s.broker.waiters key = none ∧ s.broker.caches key = none

/-- Claim C1: if a consumer is suspended in `next(k, t)` (a pending waiter
future for `k` is installed) when `commit(k, e)` is called, then the
commit succeeds, `next` returns the committed event (not `none`), the
commit leaves the cache pools untouched, and a `popCached(k)` performed
after the waiter resumes does not also contain the event — delivery is
exactly once, through the waiter path only. -/
theorem C1_waiter_path_delivers_exactly_once (b : Broker) (key : String)
    (fid : Nat) (lab : Option String) (p : String)
    (hw : b.waiters key = some fid)
    (hp : b.futures fid = some .pending)
    (hni : wrap lab p ∉ (b.caches key).getD []) :
    ∃ b', commit key lab p b = .ok b'
      ∧ (nextResume key fid .resolved b').1 = some (wrap lab p)
      ∧ b'.caches = b.caches
      ∧ wrap lab p ∉ (pop_caches key ((nextResume key fid .resolved b').2)).1 := by
  refine ⟨{ b with futures := mset b.futures fid (.resolved (wrap lab p)) },
    commit_pending_waiter key lab p b fid hw hp, ?_, rfl, ?_⟩
  · simp [nextResume, nextFinally, waitResult]
  · simpa [pop_caches, nextResume, nextFinally] using hni

/-- Witness for C1 at the concrete broker state `waiterBroker`. -/
theorem C1_waiter_path_delivers_exactly_once_witness :
    waiterBroker.waiters "k" = some 0
    ∧ waiterBroker.futures 0 = some FutureState.pending
    ∧ wrap none "x" ∉ (waiterBroker.caches "k").getD []
    ∧ ∃ b', commit "k" none "x" waiterBroker = .ok b'
        ∧ (nextResume "k" 0 .resolved b').1 = some (wrap none "x")
        ∧ b'.caches = waiterBroker.caches
        ∧ wrap none "x" ∉ (pop_caches "k" ((nextResume "k" 0 .resolved b').2)).1 :=
  ⟨by decide, by decide, by decide,
   C1_waiter_path_delivers_exactly_once waiterBroker "k" 0 none "x"
     (by decide) (by decide) (by decide)⟩

/-- Claim C2: events committed for a key while it has no waiter are all
cached, in commit order; the next `popCached` returns exactly that FIFO
sequence, and an immediately following second `popCached` returns the
empty sequence. -/
theorem C2_cache_fifo_and_idempotent_drain (b : Broker) (key : String)
    (evs : List (Option String × String))
    (hw : b.waiters key = none) (hc : (b.caches key).getD [] = []) :
    ∃ b', commitList key evs b = .ok b'
      ∧ (pop_caches key b').1 = evs.map (fun e => wrap e.1 e.2)
      ∧ (pop_caches key ((pop_caches key b').2)).1 = [] := by
  obtain ⟨b', h1, h2, h3⟩ := commitList_no_waiter key evs b hw
  refine ⟨b', h1, ?_, ?_⟩
  · simp [pop_caches, h3, hc]
  · simp [pop_caches, mset]

/-- Witness for C2: scenario A of the spec, two commits for "alice"
drained in order, second drain empty. -/
theorem C2_cache_fifo_and_idempotent_drain_witness :
    Broker.init.waiters "alice" = none
    ∧ (Broker.init.caches "alice").getD [] = []
    ∧ ∃ b', commitList "alice" [(none, "x"), (none, "y")] Broker.init = .ok b'
        ∧ (pop_caches "alice" b').1 = [wrap none "x", wrap none "y"]
        ∧ (pop_caches "alice" ((pop_caches "alice" b').2)).1 = [] :=
  ⟨rfl, rfl, by
    simpa using
      C2_cache_fifo_and_idempotent_drain Broker.init "alice"
        [(none, "x"), (none, "y")] rfl rfl⟩

/-- Claim C3: a call to `next` that times out returns `none`, and the
resume block removes the waiter entry for the key on every one of its
exit paths — normal resolution, timeout, or cancellation — whatever the
broker state has become by the time it runs, so the waiter table has no
entry for the key afterwards (the cleanup sits in a `finally` block and
cannot be skipped). -/
theorem C3_timeout_returns_none_and_waiter_removed :
    ∀ (b b' : Broker) (key : String) (fid : Nat) (w : WaitEnd),
      (nextResume key (nextEnter key b).1 .timedOut (nextEnter key b).2).1 = none
      ∧ ((nextResume key fid w b').2).waiters key = none := by
  intro b b' key fid w
  refine ⟨rfl, ?_⟩
  cases w <;> simp [nextResume, nextFinally]

/-- Claim C4: a call to `next(k, t)` that begins while a pending waiter
future for `k` exists reuses that future (same id, no new future
allocated), so one `commit(k, e)` resolves all overlapping calls with
the same event — each of them, resuming in turn, reads the same resolved
value — and on timeout they all return `none` together (the first
timeout cancels the shared future; the overlapped call then observes a
`CancelledError`, which its `finally` turns into `none` as well). -/
theorem C4_overlapping_next_reuses_waiter (b : Broker) (key : String)
    (fid : Nat) (lab : Option String) (p : String)
    (hw : b.waiters key = some fid)
    (hp : b.futures fid = some .pending) :
    (nextEnter key b).1 = fid
    ∧ ((nextEnter key b).2).futures = b.futures
    ∧ ((nextEnter key b).2).fresh = b.fresh
    ∧ ((nextEnter key b).2).waiters key = some fid
    ∧ (∀ b', commit key lab p b = .ok b' →
        (nextResume key fid .resolved b').1 = some (wrap lab p)
        ∧ (nextResume key fid .resolved
            ((nextResume key fid .resolved b').2)).1 = some (wrap lab p))
    ∧ (nextResume key fid .timedOut b).1 = none
    ∧ (nextResume key fid .ctxCancelled
        ((nextResume key fid .timedOut b).2)).1 = none := by
  refine ⟨by simp [nextEnter, hw], by simp [nextEnter, hw], by simp [nextEnter, hw],
    by simp [nextEnter, hw], ?_, rfl, rfl⟩
  intro b' h'
  rw [commit_pending_waiter key lab p b fid hw hp] at h'
  injection h' with h''
  subst h''
  constructor
  · simp [nextResume, nextFinally, waitResult]
  · simp [nextResume, nextFinally, waitResult]

/-- Witness for C4 at the concrete broker state `waiterBroker`. -/
theorem C4_overlapping_next_reuses_waiter_witness :
    waiterBroker.waiters "k" = some 0
    ∧ waiterBroker.futures 0 = some FutureState.pending
    ∧ (nextEnter "k" waiterBroker).1 = 0
    ∧ (nextResume "k" 0 .timedOut waiterBroker).1 = none :=
  ⟨by decide, by decide,
   (C4_overlapping_next_reuses_waiter waiterBroker "k" 0 none "x"
     (by decide) (by decide)).1,
   (C4_overlapping_next_reuses_waiter waiterBroker "k" 0 none "x"
     (by decide) (by decide)).2.2.2.2.2.1⟩

/-- Claim C5 counterexample: `commit` CAN fail.  In the reachable state
where a consumer has entered `next("k", ·)` and a first commit has
already resolved its future (the waiting task has not resumed, so the
waiter entry is still in the map), a second `commit("k", ·)` calls
`set_result` on the already-resolved future and raises
`InvalidStateError`. -/
theorem C5_commit_can_fail_counterexample : ¬ CommitNeverFails := by
  intro h
  have hr : Reachable
      (execOps [Op.opNextEnter 0 "k", Op.opCommit "k" none "a"] Sys.init) :=
    ⟨[Op.opNextEnter 0 "k", Op.opCommit "k" none "a"], rfl⟩
  have hx := h _ hr "k" none "b"
  revert hx
  decide

/-- Claim C5 amended: `commit` never blocks (it is a single synchronous
step) and fails in exactly one situation: the key has a waiter entry
whose future is no longer pending (already resolved by an earlier
commit, or cancelled by a racing timeout) — then `set_result` raises
`InvalidStateError` before any state change.  When the key has no
waiter entry (including after removal) `commit` always succeeds by
caching, and it never touches a removed handle, because membership is
checked first. -/
theorem C5_amended_commit_fails_iff_stale_waiter :
    ∀ (b : Broker) (key : String) (lab : Option String) (p : String),
      (commit key lab p b).isOk = false
        ↔ ∃ fid, b.waiters key = some fid
            ∧ b.futures fid ≠ some FutureState.pending := by
  intro b key lab p
  rcases hw : b.waiters key with _ | fid
  · simp [commit, hw, Except.isOk, Except.toBool]
  · rcases hp : b.futures fid with _ | fs
    · simp [commit, set_result, hw, hp, Except.isOk, Except.toBool]
    · cases fs <;> simp [commit, set_result, hw, hp, Except.isOk, Except.toBool]

/-- Witness for the amended C5: in `resolvedBroker` the waiter future for
"k" is already resolved, and `commit` indeed fails there. -/
theorem C5_amended_commit_fails_iff_stale_waiter_witness :
    (commit "k" none "b" resolvedBroker).isOk = false :=
  (C5_amended_commit_fails_iff_stale_waiter resolvedBroker "k" none "b").mpr
    ⟨0, by decide, by decide⟩

/-- Claim C6: the polling endpoint.  `GET` first drains the cache and, if
it was non-empty, returns exactly those events; with an empty cache it
performs a `next` call bounded by the fixed default timeout of 30
seconds and returns `[]` on timeout or the single delivered event —
a label/payload pair formed at commit time — if one arrives during the
wait; `DELETE` drains and discards the cache and returns an empty
body. -/
theorem C6_polling_endpoint_protocol (b0 b : Broker) (key : String)
    (lab : Option String) (p : String)
    (h0 : ((pop_caches key b0).1).isEmpty = false)
    (h1 : ((pop_caches key b).1).isEmpty = true)
    (h2 : b.waiters key = none) :
    next_timeout_default = 30
    ∧ (∀ env w, apiGet key env w b0 = ((pop_caches key b0).1, (pop_caches key b0).2))
    ∧ (apiGet key (fun x => x) .timedOut b).1 = []
    ∧ (apiGet key (commitRun key lab p) .resolved b).1 = [wrap lab p]
    ∧ (apiDelete key b0).1 = none
    ∧ ((apiDelete key b0).2).caches key = some [] := by
  refine ⟨rfl, ?_, ?_, ?_, rfl, by simp [apiDelete, pop_caches]⟩
  · intro env w
    simp [apiGet, pop_caches] at h0 ⊢
    simp [h0]
  · simp [apiGet, pop_caches] at h1 ⊢
    simp [h1, nextEnter, h2, nextResume, nextFinally]
  · simp [apiGet, pop_caches] at h1 ⊢
    simp [h1, nextEnter, h2, commitRun, commit, set_result, nextResume,
      nextFinally, waitResult, mset]

/-- Witness for C6 at the concrete broker states `cachedBroker` (non-empty
cache) and `Broker.init` (empty cache). -/
theorem C6_polling_endpoint_protocol_witness :
    ((pop_caches "k" cachedBroker).1).isEmpty = false
    ∧ ((pop_caches "k" Broker.init).1).isEmpty = true
    ∧ (apiGet "k" (fun x => x) .timedOut Broker.init).1 = []
    ∧ (apiGet "k" (commitRun "k" none "x") .resolved Broker.init).1 = [wrap none "x"]
    ∧ (apiDelete "k" cachedBroker).1 = none := by
  have h := C6_polling_endpoint_protocol cachedBroker Broker.init "k" none "x"
    (by decide) (by decide) rfl
  exact ⟨by decide, by decide, h.2.2.1, h.2.2.2.1, h.2.2.2.2.1⟩

/-- Claim C7 counterexample: a live waiter and a non-empty cache CAN be
simultaneously active for a key.  Following the consumer protocol
itself — drain, then install the waiter — with a commit slipping in
between the two steps yields a reachable state where the waiter for "k"
is pending and the cache pool for "k" is non-empty. -/
theorem C7_waiter_and_cache_coexist_counterexample : ¬ AtMostOneActivePerKey := by
  intro h
  exact h
    (execOps [Op.opPopCaches "k", Op.opCommit "k" none "x", Op.opNextEnter 0 "k"]
      Sys.init)
    ⟨[Op.opPopCaches "k", Op.opCommit "k" none "x", Op.opNextEnter 0 "k"], rfl⟩
    "k" (by decide)

/-- Claim C7 amended: the preference half of the claim holds — when a
pending waiter exists, `commit` resolves it and leaves both the cache
map and the waiter map unmodified; only when no waiter entry exists
does it append to the key's cache pool — but the at-most-one-active
invariant does not: a commit can land between the cache drain and the
waiter installation of a consumer, after which a live waiter and a
non-empty cache coexist. -/
theorem C7_amended_commit_prefers_waiter (b1 b2 : Broker) (key : String)
    (lab : Option String) (p : String) (fid : Nat)
    (hw : b1.waiters key = some fid) (hp : b1.futures fid = some .pending)
    (hn : b2.waiters key = none) :
    commit key lab p b1 =
      .ok { b1 with futures := mset b1.futures fid (.resolved (wrap lab p)) }
    ∧ commit key lab p b2 =
      .ok { b2 with
            caches := mset b2.caches key
              (((b2.caches key).getD []) ++ [wrap lab p]) } :=
  ⟨commit_pending_waiter key lab p b1 fid hw hp,
   commit_no_waiter key lab p b2 hn⟩

/-- Witness for the amended C7 at `waiterBroker` and `Broker.init`. -/
theorem C7_amended_commit_prefers_waiter_witness :
    commit "k" none "x" waiterBroker =
      .ok { waiterBroker with
            futures := mset waiterBroker.futures 0 (.resolved (wrap none "x")) }
    ∧ commit "k" none "x" Broker.init =
      .ok { Broker.init with
            caches := mset Broker.init.caches "k"
              (((Broker.init.caches "k").getD []) ++ [wrap none "x"]) } :=
  C7_amended_commit_prefers_waiter waiterBroker Broker.init "k" none "x" 0
    (by decide) (by decide) rfl

/-- Claim C8 counterexample: cache-map keys are not garbage-collected.
After the single operation `popCached("k")` the key "k" is referenced
by no waiter and no non-empty cache, yet the cache map holds the entry
`"k" ↦ []` — `pop_caches` installs an empty-list entry and no operation
ever deletes a key from the cache map. -/
theorem C8_cache_key_persists_counterexample : ¬ KeysGarbageCollected := by
  intro h
  have hx := h (execOps [Op.opPopCaches "k"] Sys.init)
    ⟨[Op.opPopCaches "k"], rfl⟩ "k" (by decide) (by decide)
  exact absurd hx.2 (by decide)

/-- Claim C8 amended: the waiter map is garbage-collected — the resume
block of `next` removes the key on every exit path — but the cache map
is not: draining (via `popCached` directly or via the `DELETE`
endpoint) leaves, indeed installs, the key bound to the empty list, and
no broker operation ever removes a key from the cache map. -/
theorem C8_amended_waiter_removed_cache_key_kept :
    ∀ (b : Broker) (key : String) (fid : Nat) (w : WaitEnd),
      ((nextResume key fid w b).2).waiters key = none
      ∧ ((pop_caches key b).2).caches key = some []
      ∧ ((apiDelete key b).2).caches key = some [] := by
  intro b key fid w
  refine ⟨?_, by simp [pop_caches], by simp [apiDelete, pop_caches]⟩
  cases w <;> simp [nextResume, nextFinally]

/-- Claim C9, evaluated at its failing input: an authenticated user
connects the websocket consumer (ten signal registrations: five
receivers, each on `post_save` and `post_delete`) and the consumer then
exits.  No exit path unsubscribes anything — the consumer overrides no
`disconnect` and the repository never calls `Signal.disconnect` — so
all ten registrations remain in the signal registry after exit,
contradicting the claim that every subscription is unconditionally
unsubscribed on every exit path. -/
theorem C9_receivers_remain_after_exit :
    (consumerExit (UpdateConsumer.connect false ConsumerSys.init)).registry =
      [(Sig.post_save, "Message", 0), (Sig.post_delete, "Message", 0),
       (Sig.post_save, "FriendshipRequest", 1),
       (Sig.post_delete, "FriendshipRequest", 1),
       (Sig.post_save, "ChatroomMembershipRequest", 2),
       (Sig.post_delete, "ChatroomMembershipRequest", 2),
       (Sig.post_save, "Friendship", 3), (Sig.post_delete, "Friendship", 3),
       (Sig.post_save, "ChatroomMembership", 4),
       (Sig.post_delete, "ChatroomMembership", 4)]
    ∧ (consumerExit (UpdateConsumer.connect false ConsumerSys.init)).closed = true
    ∧ (consumerExit (UpdateConsumer.connect false ConsumerSys.init)).registry ≠ [] := by
  refine ⟨by decide, rfl, by decide⟩

/-- Claim C10: if the request context awaiting `next(k, t)` is cancelled
mid-wait, the resume block still removes the waiter entry for `k` and
produces `none` as the call's value instead of propagating the
cancellation — the `return` inside the `finally` block (embedded here
as `nextFinally`, a total function into a plain value) discards the
in-flight `CancelledError`, so the cancelled call terminates
normally. -/
theorem C10_cancellation_returns_none :
    ∀ (b : Broker) (key : String) (fid : Nat),
      (nextResume key fid .ctxCancelled b).1 = none
      ∧ ((nextResume key fid .ctxCancelled b).2).waiters key = none := by
  intro b key fid
  exact ⟨rfl, by simp [nextResume, nextFinally]⟩

end ChaaAt
